import Mathlib

/-!
Verification development for the whisper-playground repository.

The definitions below are a shallow embedding of the Python sources:

* `src/jp_fixed/main_medium.py` — the live pipeline: amplitude gate in the
  capture callback (`audio_cb`), the frame/accumulation loop of `transcriber`
  (the speech segmenter), the filler/dedup filter around the per-segment
  emission, and the `post_process(raw)` call site.
* `src/postprocess.py` — the text-normalization pipeline `post_process`
  together with `FALLBACK_DICT`, `load_tsv_dict`, the compiled unit/CJK/comma
  patterns, and a small executable model of Python's `re` engine (compilation
  and `re.sub`) restricted to the constructs these patterns use.
* `src/jp_fixed/main.py` — the variant `load_tsv_dict` that wraps row parsing
  in `try/except ValueError`.

Strings are modelled as `List Char` (Python `str` is a sequence of code
points; `len`, slicing and iteration in the sources are all per code point).
-/

/-! ## Constants of `src/jp_fixed/main_medium.py` (lines 40-57) -/

/-- `FRAME_MS = 30` — VAD frame duration in milliseconds. -/
def FRAME_MS : Nat := 30

/-- `CHUNK_MS = 2_000` — the legacy maximum chunk duration in milliseconds. -/
def CHUNK_MS : Nat := 2000

/-- `MIN_LEVEL = 3_000` — amplitude floor of the capture gate. -/
def MIN_LEVEL : Nat := 3000

/-- `SAMPLE_RATE * 2 * FRAME_MS // 1000 = 960` bytes per frame, i.e. 480
16-bit samples per 30 ms frame. -/
def SAMPLES_PER_FRAME : Nat := 480

/-- `limit_ms = WAIT_TIMEOUT_MS or CHUNK_MS` (main_medium.py line 100).
`WAIT_TIMEOUT_MS : int | None` comes from the CLI; Python's `or` falls
through to `CHUNK_MS` both when the flag is omitted (`None`) and when the
provided integer is falsy, i.e. `0`. -/
def limit_ms : Option Int → Int
  | none => (CHUNK_MS : Int)
  | some v => if v = 0 then (CHUNK_MS : Int) else v

/-! ## The accumulation loop of `transcriber` (main_medium.py lines 96-114)

A frame is represented by its VAD verdict (`true` = `vad.is_speech`); the
inner `while True` loop appends every arriving frame to `speech`, resets
`silence_ms` on a speech frame, adds `FRAME_MS` on a non-speech frame, and
breaks when `silence_ms >= limit_ms` or `len(speech) * FRAME_MS >= CHUNK_MS`.
A finite input list models the frames that ever arrive; `none` means the
loop is still blocked in `aud_q.get()` when the stream ends. -/

def collectChunk (limit : Int) : List Bool → Nat → List Bool → Option (List Bool × List Bool)
  | _, _, [] => none
  | speech, silence, nxt :: rest =>
    let speech' := speech ++ [nxt]
    let silence' := if nxt then 0 else silence + FRAME_MS
    if ((silence' : Int) ≥ limit) ∨ (speech'.length * FRAME_MS ≥ CHUNK_MS)
    then some (speech', rest)
    else collectChunk limit speech' silence' rest

/-- The outer per-frame dispatch (lines 93-97): a non-speech frame in the
idle state is dropped (`continue`); a speech frame starts a chunk
(`speech = [frame]`, `silence_ms = 0`) and enters the accumulation loop. -/
def nextChunk (limit : Int) : List Bool → Option (List Bool × List Bool)
  | [] => none
  | f :: rest => if f then collectChunk limit [f] 0 rest else nextChunk limit rest

/-- Milliseconds of trailing silence of a chunk: `FRAME_MS` times the length
of the maximal all-non-speech suffix.  This is the quantity the loop's
`silence_ms` counter tracks. -/
def trailingSilenceMs (chunk : List Bool) : Nat :=
  FRAME_MS * (chunk.reverse.takeWhile (fun b => !b)).length

/-- The flush condition of main_medium.py line 113, expressed on the chunk
contents alone: `silence_ms >= limit_ms or len(speech) * FRAME_MS >= CHUNK_MS`. -/
def flushCond (limit : Int) (chunk : List Bool) : Bool :=
  decide ((trailingSilenceMs chunk : Int) ≥ limit) || decide (chunk.length * FRAME_MS ≥ CHUNK_MS)

/-! ## The filler/dedup filter (main_medium.py lines 59-63 and 127-133) -/

/-- `FILLER` — the fixed filler-phrase set (three exact strings). -/
def FILLER : List (List Char) :=
  ["ご視聴ありがとうございました".toList,
   "最後まで視聴してくださって ありがとうございます".toList,
   "ご視聴ありがとうございました。".toList]

/-- One iteration of the per-segment filter (lines 130-133): given the
normalized candidate `line` and the current `last_line`, either drop the
line (`continue`, state unchanged) or emit it and update `last_line`. -/
def dedup_step (line last : List Char) : Option (List Char) × List Char :=
  if line ∈ FILLER ∨ line = last then (none, last) else (some line, line)

/-- Folding `dedup_step` over a list of candidate lines, collecting the
emitted lines in order. -/
def dedup_run (last : List Char) : List (List Char) → List (List Char)
  | [] => []
  | l :: ls =>
    match dedup_step l last with
    | (some out, last') => out :: dedup_run last' ls
    | (none, last') => dedup_run last' ls

/-! ## Dictionary loading (`postprocess.py` lines 30-76, `jp_fixed/main.py` lines 36-87)

A rule row is `(pattern, replacement, is_regex)`.  The Python sources write
the fallback patterns as raw strings in which `\\` denotes two literal
characters backslash-backslash; e.g. `r"(\\d+)の(\\d+)"` is the twelve
characters `(\\d+)の(\\d+)` — as a regex this matches a literal backslash
followed by letters `d`, not digits.  The Lean strings below spell exactly
the same character sequences (`\\\\` in Lean source is two backslash
characters). -/

abbrev RuleRow := String × String × Int

/-- `FALLBACK_DICT` of `src/postprocess.py` lines 30-59 (identical in
`src/jp_fixed/main.py` lines 36-65): 28 entries, all with `is_regex = 1`. -/
def FALLBACK_DICT : List RuleRow := [
  ("手素", "主訴", 1),
  ("三素", "主訴", 1),
  ("スポ.?2", "SpO2", 1),
  ("スポー?に?", "SpO2", 1),
  ("SpO2\\\\s*(\\\\d+)", "SpO2 \\\\1", 1),
  ("c ?r ?p", "CRP", 1),
  ("c\\\\s*ガール\\\\s*p\\\\s*12\\\\s*(?:[\\\\.]|ピリオド)?\\\\s*3", "CRP12.3", 1),
  ("レバーフロキサ.*", "レボフロキサシン", 1),
  ("ナイク", "内科", 1),
  ("若白", "脈拍", 1),
  ("貼って9?1200", "白血球1万1200", 1),
  ("4リットル", "毎デシリットル", 1),
  ("土石", "と咳", 1),
  ("ミリグラムごとで", "ミリグラム毎", 1),
  ("c\\\\s*d", "CT", 1),
  ("右下歯", "右下葉", 1),
  ("(\\\\d+)の(\\\\d+)", "\\\\1/\\\\2", 1),
  ("ミリグラム毎毎", "ミリグラム毎", 1),
  ("ミリグラム毎デシリットル", "mg/dL", 1),
  ("CRP\\\\s*([\\\\d\\\\.]+)\\\\s*ミリグラム毎デシリットル", "CRP \\\\1 mg/dL", 1),
  ("CRP\\\\s*([\\\\d\\\\.]+)\\\\s*mg/?dL", "CRP \\\\1 mg/dL", 1),
  ("(\\\\d+)ミリグラム", "\\\\1 mg", 1),
  ("(\\\\d+)\\\\s*mg\\\\b", "\\\\1 mg", 1),
  ("(\\\\d+)ミリ", "\\\\1 mm", 1),
  ("(\\\\d+)\\\\s*パーセント", "\\\\1 %", 1),
  ("(\\\\d+)%", "\\\\1 %", 1),
  ("(\\\\d+)％", "\\\\1 %", 1),
  ("SpO2\\\\s*(\\\\d+)\\\\s*%", "SpO2 \\\\1 %", 1)]

/-- Whitespace for Python's `str.strip` / `int()` / regex `\s`, restricted
to the whitespace characters that can occur in this development. -/
def isPyWs (c : Char) : Bool :=
  c = ' ' || c = '\t' || c = '\n' || c = '\r' || c = '\x0b' || c = '\x0c' ||
  c = ' ' || c = '　'

/-- Python `s.startswith(pre)`, expressed on the code-point sequences. -/
def pyStartsWith (s pre : String) : Bool :=
  pre.toList.isPrefixOf s.toList

/-- Python `int(s)`: surrounding whitespace stripped, an optional sign, then
a non-empty run of decimal digits; anything else raises `ValueError`
(modelled as `none`).  Underscore separators and non-ASCII digits, which
CPython also accepts, do not occur in this development. -/
def pyInt (s : String) : Option Int :=
  let t := ((s.toList.dropWhile isPyWs).reverse.dropWhile isPyWs).reverse
  let signed : Bool × List Char :=
    match t with
    | '-' :: rest => (true, rest)
    | '+' :: rest => (false, rest)
    | _ => (false, t)
  if signed.2 ≠ [] ∧ signed.2.all (fun c => c.isDigit) then
    let v : Nat := signed.2.foldl (fun acc c => acc * 10 + (c.toNat - 48)) 0
    some (if signed.1 then -(v : Int) else (v : Int))
  else none

/-- Row loop of `load_tsv_dict` in `src/postprocess.py` lines 71-75: blank
rows and `#`-rows are skipped, every other row is padded with `["", "0"]`
and unpacked, and `int(is_rx)` failing raises `ValueError`, aborting the
whole load (`Except.error`). -/
def parseRowsAbort : List (List String) → Except Unit (List RuleRow)
  | [] => .ok []
  | row :: rest =>
    match row with
    | [] => parseRowsAbort rest
    | c0 :: _ =>
      if pyStartsWith c0 "#" then parseRowsAbort rest
      else
        let padded := row ++ ["", "0"]
        match pyInt (padded.getD 2 "") with
        | none => .error ()
        | some n =>
          match parseRowsAbort rest with
          | .error e => .error e
          | .ok rs => .ok ((padded.getD 0 "", padded.getD 1 "", n) :: rs)

/-- `load_tsv_dict` of `src/postprocess.py` lines 65-76.  The file is
modelled as `none` (path does not exist) or `some rows` (the
tab-delimited rows).  `return rules or FALLBACK_DICT` yields the fallback
when zero usable rules were collected. -/
def load_tsv_dict_pp : Option (List (List String)) → Except Unit (List RuleRow)
  | none => .ok FALLBACK_DICT
  | some rows =>
    match parseRowsAbort rows with
    | .error e => .error e
    | .ok rules => .ok (if rules = [] then FALLBACK_DICT else rules)

/-- Row loop of `load_tsv_dict` in `src/jp_fixed/main.py` lines 79-86: same
as `parseRowsAbort`, except the row is wrapped in `try/except ValueError`,
so a row whose `is_rx` field fails `int()` is skipped with a warning
instead of aborting. -/
def parseRowsSkip : List (List String) → List RuleRow
  | [] => []
  | row :: rest =>
    match row with
    | [] => parseRowsSkip rest
    | c0 :: _ =>
      if pyStartsWith c0 "#" then parseRowsSkip rest
      else
        let padded := row ++ ["", "0"]
        match pyInt (padded.getD 2 "") with
        | none => parseRowsSkip rest
        | some n => (padded.getD 0 "", padded.getD 1 "", n) :: parseRowsSkip rest

/-- `load_tsv_dict` of `src/jp_fixed/main.py` lines 71-87. -/
def load_tsv_dict_main : Option (List (List String)) → List RuleRow
  | none => FALLBACK_DICT
  | some rows =>
    let rules := parseRowsSkip rows
    if rules = [] then FALLBACK_DICT else rules

/-- The C2 scenario: a malformed two-field row `a<TAB>b` between two valid
rows.  Padding makes its `is_rx` field the empty string, and `int("")`
raises `ValueError`. -/
def malformedRows : List (List String) :=
  [["ok1", "r1", "1"], ["a", "b"], ["ok2", "r2", "0"]]

/-! ## An executable model of Python's `re` engine

`post_process` uses `re.sub` with compiled patterns.  The model below
implements the constructs those patterns use: literals, `.`, character
classes with ranges and escapes (incl. `\uXXXX`), `\s`/`\S`/`\d`, ordered
alternation `|`, greedy `*`/`+`/`?`, capturing and `(?:` non-capturing
groups, `re.I` via ASCII case folding, and replacement templates with
numbered back-references (`\1`) where `\\` is a literal backslash.
Matching is backtracking with leftmost, first-alternative, greedy-preferred
semantics, exactly like CPython's `sre`; `re.sub` replaces leftmost
non-overlapping matches and, after an empty match, copies one character
(CPython ≥ 3.7 behavior).  All recursion is fuel-indexed so that every
function evaluates inside the kernel. -/

inductive ClsItem
  | ch (c : Char)
  | range (lo hi : Char)

inductive Re
  | eps
  | lit (c : Char)
  | dot
  | cls (neg : Bool) (items : List ClsItem)
  | seq (a b : Re)
  | alt (a b : Re)
  | star (a : Re)
  | grp (idx : Nat) (a : Re)

def clsItemMatch (it : ClsItem) (c : Char) : Bool :=
  match it with
  | .ch d => c = d
  | .range lo hi => decide (lo ≤ c) && decide (c ≤ hi)

def clsMatchBase (items : List ClsItem) (c : Char) : Bool :=
  items.any (fun it => clsItemMatch it c)

/-- Class membership; under `re.I` a character also matches through its
ASCII case sibling. -/
def clsMatch (ci : Bool) (neg : Bool) (items : List ClsItem) (c : Char) : Bool :=
  let base := clsMatchBase items c ||
    (ci && (clsMatchBase items c.toLower || clsMatchBase items c.toUpper))
  if neg then !base else base

def litMatch (ci : Bool) (p c : Char) : Bool :=
  p = c || (ci && (p.toLower == c.toLower))

/-- Captured groups of one match attempt, most recent first. -/
abbrev Groups := List (Nat × List Char)

def getGroup (gs : Groups) (i : Nat) : Option (List Char) :=
  (gs.find? (fun p => p.1 == i)).map (fun p => p.2)

/-- Backtracking matcher in continuation style.  `k` receives the remaining
input and the captured groups; ordered choice (`alt` tries left first,
`star` prefers consuming) gives CPython's preference semantics.  The fuel
only bounds recursion depth; `reMatchAt` passes enough for any input. -/
def reMatch (ci : Bool) : Nat → Re → List Char → Groups →
    (List Char → Groups → Option (List Char × Groups)) → Option (List Char × Groups)
  | 0, _, _, _, _ => none
  | fuel + 1, r, s, gs, k =>
    match r with
    | .eps => k s gs
    | .lit c =>
      match s with
      | [] => none
      | x :: xs => if litMatch ci c x then k xs gs else none
    | .dot =>
      match s with
      | [] => none
      | x :: xs => if x = '\n' then none else k xs gs
    | .cls neg items =>
      match s with
      | [] => none
      | x :: xs => if clsMatch ci neg items x then k xs gs else none
    | .seq a b => reMatch ci fuel a s gs (fun s' gs' => reMatch ci fuel b s' gs' k)
    | .alt a b =>
      match reMatch ci fuel a s gs k with
      | some res => some res
      | none => reMatch ci fuel b s gs k
    | .star a =>
      match reMatch ci fuel a s gs (fun s' gs' =>
          if s'.length = s.length then none
          else reMatch ci fuel (.star a) s' gs' k) with
      | some res => some res
      | none => k s gs
    | .grp i a =>
      reMatch ci fuel a s gs
        (fun s' gs' => k s' ((i, s.take (s.length - s'.length)) :: gs'))

def reSize : Re → Nat
  | .eps => 1
  | .lit _ => 1
  | .dot => 1
  | .cls _ _ => 1
  | .seq a b => reSize a + reSize b + 1
  | .alt a b => reSize a + reSize b + 1
  | .star a => reSize a + 1
  | .grp _ a => reSize a + 1

/-- Match `r` at the start of `s`; on success return the consumed length and
the captured groups. -/
def reMatchAt (ci : Bool) (r : Re) (s : List Char) : Option (Nat × Groups) :=
  match reMatch ci ((s.length + 2) * (reSize r + 2)) r s [] (fun s' gs => some (s', gs)) with
  | some (s', gs) => some (s.length - s'.length, gs)
  | none => none

/-- Scan of `re.sub`: at each position try a match; on a non-empty match
emit the replacement and continue after it, on an empty match emit the
replacement and copy one character, otherwise copy one character. -/
def reSubGo (ci : Bool) (r : Re) (repl : Groups → List Char) : Nat → List Char → List Char
  | 0, s => s
  | fuel + 1, s =>
    match reMatchAt ci r s with
    | some (len, gs) =>
      if len = 0 then
        match s with
        | [] => repl gs
        | c :: rest => repl gs ++ c :: reSubGo ci r repl fuel rest
      else repl gs ++ reSubGo ci r repl fuel (s.drop len)
    | none =>
      match s with
      | [] => []
      | c :: rest => c :: reSubGo ci r repl fuel rest

def reSub (ci : Bool) (r : Re) (repl : Groups → List Char) (s : List Char) : List Char :=
  reSubGo ci r repl (s.length + 1) s

/-! ### Pattern compilation (Python regex syntax, the constructs used) -/

def hexVal (c : Char) : Option Nat :=
  if '0' ≤ c ∧ c ≤ '9' then some (c.toNat - 48)
  else if 'a' ≤ c ∧ c ≤ 'f' then some (c.toNat - 87)
  else if 'A' ≤ c ∧ c ≤ 'F' then some (c.toNat - 55)
  else none

def hex4 (a b c d : Char) : Option Char := do
  let va ← hexVal a
  let vb ← hexVal b
  let vc ← hexVal c
  let vd ← hexVal d
  pure (Char.ofNat (((va * 16 + vb) * 16 + vc) * 16 + vd))

/-- Items of `\s` (and the complement `\S`): the whitespace repertoire of
`isPyWs`. -/
def wsClassItems : List ClsItem :=
  [.ch ' ', .ch '\t', .ch '\n', .ch '\r', .ch '\x0B', .ch '\x0C',
   .ch ' ', .ch '　']

/-- Items of `\d`: decimal digits (ASCII and the full-width digits, which
Python's Unicode `\d` also matches). -/
def digitClassItems : List ClsItem :=
  [.range '0' '9', .range '０' '９']

/-- One endpoint inside a character class: a literal, `\\`-escaped
punctuation, or `\uXXXX`. -/
def parseClsAtom : List Char → Option (Char × List Char)
  | '\\' :: c :: rest =>
    if c = 'u' then
      match rest with
      | h1 :: h2 :: h3 :: h4 :: rest' => (hex4 h1 h2 h3 h4).map (fun ch => (ch, rest'))
      | _ => none
    else if c.isAlphanum then none
    else some (c, rest)
  | ']' :: _ => none
  | c :: rest => some (c, rest)
  | [] => none

def parseClsItems : Nat → List Char → Option (List ClsItem × List Char)
  | 0, _ => none
  | fuel + 1, cs =>
    match cs with
    | ']' :: rest => some ([], rest)
    | _ =>
      match parseClsAtom cs with
      | none => none
      | some (a, rest) =>
        match rest with
        | '-' :: ']' :: rest2 => some ([.ch a, .ch '-'], rest2)
        | '-' :: r2 =>
          match parseClsAtom r2 with
          | none => none
          | some (b, rest2) =>
            match parseClsItems fuel rest2 with
            | none => none
            | some (items, rest') => some (.range a b :: items, rest')
        | _ =>
          match parseClsItems fuel rest with
          | none => none
          | some (items, rest') => some (.ch a :: items, rest')

/-- The four levels of the recursive-descent grammar: alternation,
concatenation, quantified atom, atom. -/
inductive ReParseMode
  | levelAlt
  | levelSeq
  | levelAtomQ
  | levelAtom

/-- Recursive-descent pattern compiler; `gi` is the next capturing-group
number (groups are numbered by the position of their `(`, as in Python). -/
def parseStep : Nat → ReParseMode → List Char → Nat → Option (Re × List Char × Nat)
  | 0, _, _, _ => none
  | fuel + 1, mode, cs, gi =>
    match mode with
    | .levelAlt =>
      match parseStep fuel .levelSeq cs gi with
      | none => none
      | some (r, rest, gi') =>
        match rest with
        | '|' :: rest2 =>
          match parseStep fuel .levelAlt rest2 gi' with
          | none => none
          | some (r2, rest3, gi2) => some (.alt r r2, rest3, gi2)
        | _ => some (r, rest, gi')
    | .levelSeq =>
      match cs with
      | [] => some (.eps, [], gi)
      | ')' :: _ => some (.eps, cs, gi)
      | '|' :: _ => some (.eps, cs, gi)
      | _ =>
        match parseStep fuel .levelAtomQ cs gi with
        | none => none
        | some (r, rest, gi') =>
          match parseStep fuel .levelSeq rest gi' with
          | none => none
          | some (r2, rest2, gi2) => some (.seq r r2, rest2, gi2)
    | .levelAtomQ =>
      match parseStep fuel .levelAtom cs gi with
      | none => none
      | some (r, rest, gi') =>
        match rest with
        | '*' :: rest2 => some (.star r, rest2, gi')
        | '+' :: rest2 => some (.seq r (.star r), rest2, gi')
        | '?' :: rest2 => some (.alt r .eps, rest2, gi')
        | _ => some (r, rest, gi')
    | .levelAtom =>
      match cs with
      | '(' :: '?' :: ':' :: rest =>
        match parseStep fuel .levelAlt rest gi with
        | some (r, ')' :: rest2, gi') => some (r, rest2, gi')
        | _ => none
      | '(' :: rest =>
        match parseStep fuel .levelAlt rest (gi + 1) with
        | some (r, ')' :: rest2, gi') => some (.grp gi r, rest2, gi')
        | _ => none
      | '[' :: '^' :: rest =>
        match parseClsItems fuel rest with
        | none => none
        | some (items, rest2) => some (.cls true items, rest2, gi)
      | '[' :: rest =>
        match parseClsItems fuel rest with
        | none => none
        | some (items, rest2) => some (.cls false items, rest2, gi)
      | '.' :: rest => some (.dot, rest, gi)
      | '\\' :: c :: rest =>
        if c = 's' then some (.cls false wsClassItems, rest, gi)
        else if c = 'S' then some (.cls true wsClassItems, rest, gi)
        else if c = 'd' then some (.cls false digitClassItems, rest, gi)
        else if c = 'u' then
          match rest with
          | h1 :: h2 :: h3 :: h4 :: rest2 =>
            match hex4 h1 h2 h3 h4 with
            | none => none
            | some ch => some (.lit ch, rest2, gi)
          | _ => none
        else if c.isAlphanum then none
        else some (.lit c, rest, gi)
      | c :: rest =>
        if c = '|' ∨ c = ')' ∨ c = '*' ∨ c = '+' ∨ c = '?' ∨ c = '\\' then none
        else some (.lit c, rest, gi)
      | [] => none

/-- `re.compile`: compile a whole pattern; leftover input (e.g. an
unbalanced `)`) or an unsupported construct is a compile error (`none`),
modelling `re.error`. -/
def parseRe (pat : String) : Option Re :=
  match parseStep (4 * pat.length + 16) .levelAlt pat.toList 1 with
  | some (r, [], _) => some r
  | _ => none

/-! ### Replacement templates -/

inductive TmplItem
  | str (cs : List Char)
  | grp (n : Nat)

/-- Parse a `re.sub` replacement template: `\` + digits (up to two) is a
group reference, `\\` is a literal backslash, any other escape is an error,
everything else is literal. -/
def parseTmplGo : Nat → List Char → Option (List TmplItem)
  | 0, _ => none
  | _ + 1, [] => some []
  | fuel + 1, '\\' :: c :: rest =>
    if c = '\\' then (parseTmplGo fuel rest).map (fun ts => .str ['\\'] :: ts)
    else if c.isDigit then
      match rest with
      | d2 :: rest2 =>
        if d2.isDigit then
          (parseTmplGo fuel rest2).map (fun ts => .grp (10 * (c.toNat - 48) + (d2.toNat - 48)) :: ts)
        else (parseTmplGo fuel rest).map (fun ts => .grp (c.toNat - 48) :: ts)
      | [] => some [.grp (c.toNat - 48)]
    else none
  | _ + 1, '\\' :: [] => none
  | fuel + 1, c :: rest => (parseTmplGo fuel rest).map (fun ts => .str [c] :: ts)

def parseTmpl (tmpl : String) : Option (List TmplItem) :=
  parseTmplGo (tmpl.length + 1) tmpl.toList

/-- Expand a template against the groups of one match; a group that did not
participate expands to the empty string (CPython ≥ 3.5). -/
def expandTmpl (items : List TmplItem) (gs : Groups) : List Char :=
  items.foldr (fun it acc =>
    (match it with
     | .str cs => cs
     | .grp n => (getGroup gs n).getD []) ++ acc) []

/-- `re.sub(pat, tmpl, t, flags)` with string pattern and template: compile
both, then substitute; a compile failure propagates (`none`). -/
def pySub (ci : Bool) (pat tmpl : String) (t : List Char) : Option (List Char) := do
  let r ← parseRe pat
  let items ← parseTmpl tmpl
  pure (reSub ci r (expandTmpl items) t)

/-- Python `text.replace(pat, rep)`: literal, non-overlapping, left to
right; an empty pattern inserts the replacement at every boundary. -/
def strReplaceGo (pat rep : List Char) : Nat → List Char → List Char
  | 0, s => s
  | _ + 1, [] => if pat = [] then rep else []
  | fuel + 1, c :: rest =>
    if pat ≠ [] ∧ pat.isPrefixOf (c :: rest) then
      rep ++ strReplaceGo pat rep fuel ((c :: rest).drop pat.length)
    else if pat = [] then rep ++ c :: strReplaceGo pat rep fuel rest
    else c :: strReplaceGo pat rep fuel rest

def strReplace (s pat rep : List Char) : List Char :=
  strReplaceGo pat rep (s.length + 1) s

/-! ## The normalization pipeline of `src/postprocess.py` (lines 81-129) -/

/-- Modelled from the spec: the orthographic normalizer `neologdn.normalize`
is an external library (not part of this repository's sources); the spec
describes it as canonicalizing "full-width/half-width variants and
repeated-character elongation".  Modelled as a character-wise width
canonicalization (full-width ASCII forms and the ideographic space to their
ASCII counterparts) followed by collapsing runs of the long-vowel mark
`ー`; identity on all other characters. -/
def widthChar (c : Char) : Char :=
  if 0xFF01 ≤ c.toNat ∧ c.toNat ≤ 0xFF5E then Char.ofNat (c.toNat - 0xFEE0)
  else if c = '　' then ' '
  else c

def collapseChoon : List Char → List Char
  | [] => []
  | [c] => [c]
  | a :: b :: rest =>
    if a = 'ー' ∧ b = 'ー' then collapseChoon (b :: rest)
    else a :: collapseChoon (b :: rest)

def neologdn_normalize (s : List Char) : List Char :=
  collapseChoon (s.map widthChar)

/-- Modelled from the spec: `unicodedata.normalize("NFKC", ·)` is a Python
standard-library function (external to this repository).  NFKC is modelled
character-wise on the repertoire this pipeline can see: full-width forms
fold to ASCII, the ideographic space to a space, `℃` decomposes to `°C`;
ASCII, kana, CJK ideographs and `、` `。` are NFKC-stable and map to
themselves. -/
def nfkcChar (c : Char) : List Char :=
  if 0xFF01 ≤ c.toNat ∧ c.toNat ≤ 0xFF5E then [Char.ofNat (c.toNat - 0xFEE0)]
  else if c = '　' then [' ']
  else if c = '℃' then ['°', 'C']
  else [c]

def nfkc (s : List Char) : List Char :=
  (s.map nfkcChar).flatten

/-- `_unit_gap = re.compile(r"\s+(μm|mg/dL|mmHg|℃|％|%)", re.I)`
(postprocess.py line 81); `post_process` substitutes it with `r"\1"`. -/
def UNIT_GAP_SRC : String := "\\s+(μm|mg/dL|mmHg|℃|％|%)"

/-- `_UNIT_PATTERNS` (postprocess.py lines 83-91); note the `mm` and `μm`
rows end in `\\b` — in their raw strings that is a literal backslash
followed by `b`, not a word boundary. -/
def UNIT_PATTERNS : List (String × String) := [
  ("(\\d+)\\s*mmhg", "\\1 mmHg"),
  ("(\\d+)\\s*mg/?dl", "\\1 mg/dL"),
  ("(\\d+)\\s*mm\\\\b", "\\1 mm"),
  ("(\\d+)\\s*μm\\\\b", "\\1 μm"),
  ("(\\d+)\\s*％", "\\1 %"),
  ("(\\d+)\\s*パーセント", "\\1 %"),
  ("(\\d+)\\s*%", "\\1 %")]

/-- `_CJK_LATIN` (postprocess.py lines 93-95): a boundary between a CJK
ideograph or kana and a Latin letter or digit, in either direction. -/
def CJK_LATIN_SRC : String :=
  "([\\u4E00-\\u9FFF\\u3040-\\u30FF])([A-Za-z0-9])|([A-Za-z0-9])([\\u4E00-\\u9FFF\\u3040-\\u30FF])"

/-- `_POST_COMMA_PAT = re.compile(r"(mg/dL|mmHg|%|％)(\S)", re.I)`
(postprocess.py line 97). -/
def POST_COMMA_SRC : String := "(mg/dL|mmHg|%|％)(\\S)"

/-- `_normalize_units` (postprocess.py lines 100-103): apply every
`_UNIT_PATTERNS` row in order with `flags=re.I`. -/
def normalize_units (t : List Char) : Option (List Char) :=
  UNIT_PATTERNS.foldlM (fun acc pr => pySub true pr.1 pr.2 acc) t

/-- Python's falsy `or` on optional strings, as used in the `_CJK_LATIN`
replacement lambda: `None` and the empty string fall through. -/
def pyOrGroup (a b : Option (List Char)) : List Char :=
  match a with
  | some s => if s = [] then b.getD [] else s
  | none => b.getD []

/-- The replacement lambda of postprocess.py line 125:
`(m.group(1) or m.group(3)) + " " + (m.group(2) or m.group(4))`. -/
def cjkRepl (gs : Groups) : List Char :=
  pyOrGroup (getGroup gs 1) (getGroup gs 3) ++ [' '] ++
    pyOrGroup (getGroup gs 2) (getGroup gs 4)

/-- The `_CJK_LATIN.sub(lambda …, text)` step (compiled without `re.I`). -/
def cjkLatinSub (t : List Char) : Option (List Char) := do
  let r ← parseRe CJK_LATIN_SRC
  pure (reSub false r cjkRepl t)

/-- `_insert_period` (postprocess.py lines 106-109): append `。` when the
text is longer than 30 characters and does not end in a terminal mark. -/
def insert_period (t : List Char) : List Char :=
  if t.length > 30 ∧
      ¬ (t.getLast? = some '。' ∨ t.getLast? = some '.' ∨
         t.getLast? = some '！' ∨ t.getLast? = some '？')
  then t ++ ['。'] else t

/-- Python `str.strip()` on the modelled whitespace repertoire. -/
def pyStrip (s : List Char) : List Char :=
  ((s.dropWhile isPyWs).reverse.dropWhile isPyWs).reverse

/-- One rule application of the loop in postprocess.py lines 117-118:
`re.sub(pattern, repl, text, flags=re.I)` when `is_rx` is truthy, else
`text.replace(pattern, repl)`. -/
def applyRule (t : List Char) : RuleRow → Option (List Char)
  | (pat, repl, is_rx) =>
    if is_rx ≠ 0 then pySub true pat repl t
    else some (strReplace t pat.toList repl.toList)

def applyRules (t : List Char) (rules : List RuleRow) : Option (List Char) :=
  rules.foldlM applyRule t

/-- `post_process(text, rules)` of `src/postprocess.py` lines 115-129: the
full pipeline — orthographic normalization, the rule loop, NFKC, unit-gap
collapse, unit re-spacing, CJK/Latin boundary spacing, post-unit comma,
sentence termination, whitespace collapse and strip.  `none` models an
exception escaping the call (e.g. `re.error` on a bad rule pattern). -/
def post_process (text : List Char) (rules : List RuleRow) : Option (List Char) := do
  let t0 := neologdn_normalize text
  let t1 ← applyRules t0 rules
  let t2 := nfkc t1
  let t3 ← pySub true UNIT_GAP_SRC "\\1" t2
  let t4 ← normalize_units t3
  let t5 ← cjkLatinSub t4
  let t6 ← pySub true POST_COMMA_SRC "\\1、\\2" t5
  let t7 := insert_period t6
  let t8 ← pySub false "\\s+" " " t7
  pure (pyStrip t8)

/-! ## The per-segment call site (main_medium.py lines 127-133) -/

/-- An argument of a call to `post_process`. -/
inductive PPArg
  | text (s : String)
  | rules (r : List RuleRow)

/-- Python positional application of `post_process`: its parameter list
(postprocess.py line 115) is `(text, rules)`, both required, no defaults.
A call binds positional arguments in order; any other argument shape
raises `TypeError`, modelled as `none`. -/
def call_post_process : List PPArg → Option (List Char)
  | [PPArg.text t, PPArg.rules r] => post_process t.toList r
  | _ => none

/-- The per-segment step of the consumer loop (main_medium.py lines
127-133): `raw = seg.text.strip()`, then `line = post_process(raw)` — a
call with one positional argument — then the filler/dedup filter and
emission.  On success the first component is the emitted line (if any) and
the second the updated `last_line`; `none` models an exception escaping
the loop. -/
def segment_step (segText : String) (last : List Char) :
    Option (Option (List Char) × List Char) :=
  match call_post_process [PPArg.text (String.mk (pyStrip segText.toList))] with
  | none => none
  | some line => some (dedup_step line last)

/-! ## The capture gate (`audio_cb`, main_medium.py lines 73-77)

A capture block is the sample sequence of one PortAudio callback; with
`blocksize=0` its length is chosen by the audio subsystem and need not be
one 30 ms frame.  The consumer concatenates the accepted blocks into `buf`
and cuts `BYTES_PER_FRAME`-sized frames off it (lines 89-91). -/

/-- The gate `np.abs(indata).mean() * 32768 < MIN_LEVEL`: reading the
samples as normalized amplitudes `v/32768`, this is `mean |v| < MIN_LEVEL`,
written integrally as `Σ|v| < MIN_LEVEL * n`. -/
def belowFloor (block : List Int) : Bool :=
  decide ((block.map Int.natAbs).sum < MIN_LEVEL * block.length)

/-- Blocks surviving the gate, in arrival order — the queue contents
consumed by `transcriber`. -/
def acceptedBlocks (blocks : List (List Int)) : List (List Int) :=
  blocks.filter (fun b => ! belowFloor b)

/-- Cut consecutive complete frames of `SAMPLES_PER_FRAME` samples off a
buffer; a shorter remainder stays buffered. -/
def framesOfF : Nat → List Int → List (List Int)
  | 0, _ => []
  | fuel + 1, samples =>
    if SAMPLES_PER_FRAME ≤ samples.length then
      samples.take SAMPLES_PER_FRAME :: framesOfF fuel (samples.drop SAMPLES_PER_FRAME)
    else []

def framesOf (samples : List Int) : List (List Int) :=
  framesOfF samples.length samples

/-- The frames that reach `vad.is_speech` for a given capture-block
stream: the accepted blocks concatenated, then re-framed. -/
def vadInput (blocks : List (List Int)) : List (List Int) :=
  framesOf (acceptedBlocks blocks).flatten

/-- A single capture block holding one loud 30 ms frame followed by one
silent 30 ms frame. -/
def loudSilentBlock : List Int :=
  List.replicate 480 32000 ++ List.replicate 480 0

set_option maxRecDepth 10000
set_option maxHeartbeats 1000000

/-! ### Helper lemmas for the accumulation loop -/

theorem trailingSilenceMs_append_true (l : List Bool) :
    trailingSilenceMs (l ++ [true]) = 0 := by
  simp [trailingSilenceMs, List.reverse_append, List.takeWhile_cons]

theorem trailingSilenceMs_append_false (l : List Bool) :
    trailingSilenceMs (l ++ [false]) = trailingSilenceMs l + FRAME_MS := by
  simp [trailingSilenceMs, List.reverse_append, List.takeWhile_cons, Nat.mul_succ]

theorem flushCond_iff (limit : Int) (c : List Bool) :
    flushCond limit c = true ↔
      ((trailingSilenceMs c : Int) ≥ limit ∨ c.length * FRAME_MS ≥ CHUNK_MS) := by
  simp [flushCond]

theorem collectChunk_cons (limit : Int) (speech : List Bool) (silence : Nat)
    (nxt : Bool) (rest : List Bool) :
    collectChunk limit speech silence (nxt :: rest) =
      if (((if nxt then 0 else silence + FRAME_MS : Nat) : Int) ≥ limit) ∨
          ((speech ++ [nxt]).length * FRAME_MS ≥ CHUNK_MS)
      then some (speech ++ [nxt], rest)
      else collectChunk limit (speech ++ [nxt]) (if nxt then 0 else silence + FRAME_MS) rest := rfl

/-- Characterization of the accumulation loop: starting from accumulated
frames `speech` whose silence counter is consistent (`silence`), the loop
returns `some (chunk, rest)` exactly when some prefix of the remaining
frames first reaches the flush condition; the chunk then consists of
`speech` followed by that whole prefix (every frame appended regardless of
its VAD verdict), and no shorter prefix satisfies the flush condition. -/
theorem collectChunk_eq_some_iff (limit : Int) :
    ∀ (frames speech : List Bool) (silence : Nat),
      silence = trailingSilenceMs speech →
      ∀ (chunk rest : List Bool),
      (collectChunk limit speech silence frames = some (chunk, rest) ↔
        ∃ n, n < frames.length ∧
          chunk = speech ++ frames.take (n + 1) ∧
          rest = frames.drop (n + 1) ∧
          flushCond limit chunk = true ∧
          ∀ m, m < n → flushCond limit (speech ++ frames.take (m + 1)) = false) := by
  intro frames
  induction frames with
  | nil =>
    intro speech silence _ chunk rest
    simp [collectChunk]
  | cons nxt rest0 ih =>
    intro speech silence hsil chunk rest
    have hcat : ∀ t : List Bool, (speech ++ [nxt]) ++ t = speech ++ nxt :: t := by
      intro t; rw [List.append_assoc, List.singleton_append]
    have hsil' : (if nxt then 0 else silence + FRAME_MS)
        = trailingSilenceMs (speech ++ [nxt]) := by
      cases nxt with
      | true => simp [trailingSilenceMs_append_true]
      | false => simp [trailingSilenceMs_append_false, hsil]
    have hcondIff :
        (((if nxt then 0 else silence + FRAME_MS : Nat) : Int) ≥ limit ∨
          (speech ++ [nxt]).length * FRAME_MS ≥ CHUNK_MS) ↔
        flushCond limit (speech ++ [nxt]) = true := by
      rw [flushCond_iff, hsil']
    by_cases hF : flushCond limit (speech ++ [nxt]) = true
    · have hcond : (((if nxt then 0 else silence + FRAME_MS : Nat) : Int) ≥ limit ∨
          (speech ++ [nxt]).length * FRAME_MS ≥ CHUNK_MS) := hcondIff.mpr hF
      constructor
      · intro h
        rw [collectChunk_cons, if_pos hcond] at h
        have h' : (speech ++ [nxt], rest0) = (chunk, rest) := Option.some_inj.mp h
        have hc : speech ++ [nxt] = chunk := congrArg Prod.fst h'
        have hr : rest0 = rest := congrArg Prod.snd h'
        refine ⟨0, by simp, ?_, ?_, ?_, fun m hm => absurd hm (Nat.not_lt_zero m)⟩
        · rw [List.take_succ_cons, List.take_zero]; exact hc.symm
        · rw [List.drop_succ_cons, List.drop_zero]; exact hr.symm
        · rw [← hc]; exact hF
      · rintro ⟨n, hn, hchunk, hrest, hcond', hmin⟩
        cases n with
        | zero =>
          rw [List.take_succ_cons, List.take_zero] at hchunk
          rw [List.drop_succ_cons, List.drop_zero] at hrest
          rw [collectChunk_cons, if_pos hcond, hchunk, hrest]
        | succ k =>
          have h0 := hmin 0 (Nat.succ_pos k)
          rw [List.take_succ_cons, List.take_zero] at h0
          rw [h0] at hF
          exact absurd hF (by simp)
    · have hFf : flushCond limit (speech ++ [nxt]) = false := by simpa using hF
      have hcond : ¬ (((if nxt then 0 else silence + FRAME_MS : Nat) : Int) ≥ limit ∨
          (speech ++ [nxt]).length * FRAME_MS ≥ CHUNK_MS) := fun h => hF (hcondIff.mp h)
      rw [collectChunk_cons, if_neg hcond, hsil',
        ih (speech ++ [nxt]) (trailingSilenceMs (speech ++ [nxt])) rfl chunk rest]
      constructor
      · rintro ⟨n', hn', hchunk, hrest, hcond', hmin⟩
        refine ⟨n' + 1, by simp only [List.length_cons]; omega, ?_, ?_, hcond', ?_⟩
        · rw [hchunk, List.take_succ_cons, hcat]
        · rw [hrest, List.drop_succ_cons]
        · intro m hm
          cases m with
          | zero =>
            rw [List.take_succ_cons, List.take_zero]
            exact hFf
          | succ j =>
            have := hmin j (by omega)
            rw [List.take_succ_cons, ← hcat]
            exact this
      · rintro ⟨n, hn, hchunk, hrest, hcond', hmin⟩
        cases n with
        | zero =>
          rw [List.take_succ_cons, List.take_zero] at hchunk
          rw [hchunk, hFf] at hcond'
          exact absurd hcond' (by simp)
        | succ k =>
          refine ⟨k, by simp only [List.length_cons] at hn; omega, ?_, ?_, hcond', ?_⟩
          · rw [hchunk, List.take_succ_cons, hcat]
          · rw [hrest, List.drop_succ_cons]
          · intro m hm
            have := hmin (m + 1) (by omega)
            rw [List.take_succ_cons] at this
            rw [hcat]
            exact this

/-- Structure of an emitted chunk: it is the speech frame that opened it
followed by the consumed prefix of the remaining stream, it is non-empty,
it starts with a speech frame, and (because the flush condition is checked
after every append and `speech` starts as a single frame) its duration is
strictly below `CHUNK_MS + FRAME_MS`. -/
theorem nextChunk_spec (limit : Int) :
    ∀ (stream chunk rest : List Bool),
      nextChunk limit stream = some (chunk, rest) →
      chunk ≠ [] ∧ chunk.head? = some true ∧
      (∃ pre, stream = pre ++ chunk ++ rest ∧ ∀ b ∈ pre, b = false) ∧
      chunk.length * FRAME_MS < CHUNK_MS + FRAME_MS := by
  intro stream
  induction stream with
  | nil => intro chunk rest h; simp [nextChunk] at h
  | cons f s' ih =>
    intro chunk rest h
    by_cases hf : f = true
    · subst hf
      rw [nextChunk, if_pos rfl] at h
      have hiff := (collectChunk_eq_some_iff limit s' [true] 0
        (by simp [trailingSilenceMs, List.takeWhile_cons]) chunk rest).mp h
      obtain ⟨n, hn, hchunk, hrest, hcond, hmin⟩ := hiff
      have hn' : n < s'.length := hn
      have htl : (s'.take (n + 1)).length = n + 1 := by
        rw [List.length_take]; omega
      have hlen : chunk.length = n + 2 := by
        rw [hchunk, List.length_append, htl, List.length_singleton]
        omega
      have hjoin : chunk ++ rest = true :: s' := by
        rw [hchunk, hrest, List.append_assoc, List.take_append_drop,
          List.singleton_append]
      refine ⟨by rw [hchunk]; simp, by rw [hchunk]; rfl, ⟨[], ?_, by simp⟩, ?_⟩
      · rw [List.nil_append, hjoin]
      · cases n with
        | zero =>
          rw [hlen]
          decide
        | succ k =>
          have hmink := hmin k (Nat.lt_succ_self k)
          have hlenk : ([true] ++ s'.take (k + 1)).length = k + 2 := by
            have hkl : (s'.take (k + 1)).length = k + 1 := by
              rw [List.length_take]; omega
            rw [List.length_append, hkl, List.length_singleton]
            omega
          have hnotdur : ¬ (k + 2) * FRAME_MS ≥ CHUNK_MS := by
            intro hge
            have hfc : flushCond limit ([true] ++ s'.take (k + 1)) = true := by
              rw [flushCond_iff]
              right
              rw [hlenk]
              exact hge
            rw [hmink] at hfc
            exact absurd hfc (by simp)
          rw [hlen]
          simp only [FRAME_MS, CHUNK_MS] at hnotdur ⊢
          omega
    · have hf' : f = false := by simpa using hf
      subst hf'
      rw [nextChunk, if_neg (by simp)] at h
      obtain ⟨hne, hhead, ⟨pre, hpre, hallf⟩, hdur⟩ := ih chunk rest h
      exact ⟨hne, hhead, ⟨false :: pre, by simp [hpre], by
        intro b hb
        rcases List.mem_cons.mp hb with hb | hb
        · exact hb
        · exact hallf b hb⟩, hdur⟩

/-- C3 counterexample: the claim makes `effectiveTimeoutMs` equal the
CLI-provided `wait_timeout_ms` whenever it is provided.  With
`--wait_timeout_ms 0` the claimed effective timeout is 0, under which the
flush condition would already hold after the first appended frame (silence
30 ms ≥ 0 ms), flushing a 2-frame chunk; the code's `or`-fallback instead
makes the limit 2000 ms, and a speech frame followed by pure silence
accumulates 67 frames before flushing. -/
theorem c3_counterexample :
    limit_ms (some 0) ≠ 0 ∧
    flushCond 0 [true, false] = true ∧
    (nextChunk (limit_ms (some 0)) (true :: List.replicate 70 false)).map
        (fun p => p.1.length) = some 67 := by
  decide

/-- C3 (amended): `effectiveTimeoutMs` is the CLI-provided `wait_timeout_ms`
when provided and nonzero, and `maxChunkMs` when the flag is omitted or
zero; the accumulation loop appends every frame regardless of its VAD
verdict (the chunk is the opening speech frame followed by the whole
consumed prefix), a speech frame resets the silence run and a non-speech
frame extends it by 30 ms, and the loop flushes exactly at the first frame
boundary where the trailing silence run reaches the effective timeout or
the chunk duration reaches `CHUNK_MS`; no earlier prefix satisfies the
flush condition. -/
theorem c3_flush_characterization :
    (∀ w : Int, w ≠ 0 → limit_ms (some w) = w) ∧
    limit_ms none = (CHUNK_MS : Int) ∧
    limit_ms (some 0) = (CHUNK_MS : Int) ∧
    (∀ (limit : Int) (frames chunk rest : List Bool),
      collectChunk limit [true] 0 frames = some (chunk, rest) ↔
        ∃ n, n < frames.length ∧
          chunk = [true] ++ frames.take (n + 1) ∧
          rest = frames.drop (n + 1) ∧
          flushCond limit chunk = true ∧
          ∀ m, m < n → flushCond limit ([true] ++ frames.take (m + 1)) = false) := by
  refine ⟨fun w hw => by simp [limit_ms, hw], rfl, rfl, fun limit frames chunk rest => ?_⟩
  exact collectChunk_eq_some_iff limit frames [true] 0 (by decide) chunk rest

/-- Witness for `c3_flush_characterization`: with a provided timeout of
90 ms, a speech frame followed by three silent frames flushes exactly at
the third silent frame (silence run 90 ms), not before. -/
theorem c3_flush_characterization_witness :
    limit_ms (some 90) = 90 ∧
    collectChunk 90 [true] 0 [false, false, false, true]
      = some ([true, false, false, false], [true]) := by
  refine ⟨c3_flush_characterization.1 90 (by decide), ?_⟩
  exact (c3_flush_characterization.2.2.2 90 [false, false, false, true]
    [true, false, false, false] [true]).mpr
    ⟨2, by decide, by decide, by decide, by decide, by decide⟩

/-- C4 counterexample: a continuous run of speech frames is flushed the
first time `len(speech) * FRAME_MS >= CHUNK_MS`, i.e. at 67 frames =
2010 ms, which exceeds the claimed 2000 ms ceiling. -/
theorem c4_counterexample :
    (nextChunk (CHUNK_MS : Int) (List.replicate 68 true)).map
        (fun p => p.1.length * FRAME_MS) = some 2010 ∧
    ¬ (2010 ≤ CHUNK_MS) := by
  decide

/-- C4 (amended): every chunk handed to the recognition engine is
non-empty, starts with a VAD-accepted speech frame, consists of frames
contiguous in arrival order (the stream is a dropped all-non-speech prefix,
then the chunk, then the rest), and its duration is strictly below
`CHUNK_MS + FRAME_MS` — it may overshoot the 2000 ms ceiling by up to one
frame (2010 ms), but no further. -/
theorem c4_chunk_invariant (limit : Int) (stream chunk rest : List Bool)
    (h : nextChunk limit stream = some (chunk, rest)) :
    chunk ≠ [] ∧ chunk.head? = some true ∧
    (∃ pre, stream = pre ++ chunk ++ rest ∧ ∀ b ∈ pre, b = false) ∧
    chunk.length * FRAME_MS < CHUNK_MS + FRAME_MS :=
  nextChunk_spec limit stream chunk rest h

/-- Witness for `c4_chunk_invariant` at a concrete stream with a leading
dropped non-speech frame and a 90 ms silence flush. -/
theorem c4_chunk_invariant_witness :
    nextChunk 60 [false, true, false, false, true] = some ([true, false, false], [true]) ∧
    (([true, false, false] : List Bool) ≠ [] ∧
      ([true, false, false] : List Bool).head? = some true ∧
      (∃ pre, [false, true, false, false, true] = pre ++ [true, false, false] ++ [true] ∧
        ∀ b ∈ pre, b = false) ∧
      ([true, false, false] : List Bool).length * FRAME_MS < CHUNK_MS + FRAME_MS) :=
  ⟨by decide, c4_chunk_invariant 60 _ _ _ (by decide)⟩

/-- C7: a filler-set line is never emitted and leaves `last_line` unchanged;
a line equal to `last_line` is dropped with the state unchanged; any other
line is emitted and becomes the new `last_line`; consequently two
consecutive identical candidate lines yield exactly one emitted line. -/
theorem c7_dedup_filter (line last : List Char) :
    (line ∈ FILLER → dedup_step line last = (none, last)) ∧
    (line = last → dedup_step line last = (none, last)) ∧
    (line ∉ FILLER → line ≠ last → dedup_step line last = (some line, line)) ∧
    (line ∉ FILLER → line ≠ last → dedup_run last [line, line] = [line]) := by
  refine ⟨?_, ?_, ?_, ?_⟩
  · intro h; simp [dedup_step, h]
  · intro h; simp [dedup_step, h]
  · intro h1 h2; simp [dedup_step, h1, h2]
  · intro h1 h2
    simp [dedup_run, dedup_step, h1, h2]

/-- Witness for `c7_dedup_filter` at a concrete non-filler line. -/
theorem c7_dedup_filter_witness :
    dedup_step "こんにちは".toList "".toList = (some "こんにちは".toList, "こんにちは".toList) ∧
    dedup_run "".toList ["こんにちは".toList, "こんにちは".toList] = ["こんにちは".toList] := by
  exact ⟨(c7_dedup_filter "こんにちは".toList "".toList).2.2.1 (by decide) (by decide),
         (c7_dedup_filter "こんにちは".toList "".toList).2.2.2 (by decide) (by decide)⟩

/-- C2: the loader of `src/postprocess.py` has no `try/except`, so the
malformed row `a<TAB>b` aborts the whole load with `ValueError` instead of
being skipped; the loader of `src/jp_fixed/main.py` skips it and returns
both valid rows, which is the behavior the claim (and the spec) describe. -/
theorem c2_malformed_row_divergence :
    load_tsv_dict_pp (some malformedRows) = Except.error () ∧
    load_tsv_dict_main (some malformedRows) = [("ok1", "r1", 1), ("ok2", "r2", 0)] :=
  ⟨rfl, rfl⟩

/-- C6: a missing dictionary file yields the built-in fallback RuleSet of
exactly 28 entries; a file whose rows produce zero usable rules also yields
the fallback; a file whose rows parse to a non-empty rule list yields
exactly those rules. -/
theorem c6_fallback_ruleset :
    load_tsv_dict_pp none = Except.ok FALLBACK_DICT ∧
    FALLBACK_DICT.length = 28 ∧
    (∀ rows, parseRowsAbort rows = Except.ok [] →
      load_tsv_dict_pp (some rows) = Except.ok FALLBACK_DICT) ∧
    (∀ rows rs, parseRowsAbort rows = Except.ok rs → rs ≠ [] →
      load_tsv_dict_pp (some rows) = Except.ok rs) := by
  refine ⟨rfl, rfl, ?_, ?_⟩
  · intro rows h
    simp [load_tsv_dict_pp, h]
  · intro rows rs h hne
    simp [load_tsv_dict_pp, h, hne]

/-- Witness for `c6_fallback_ruleset`: a comment-only file falls back, a
one-rule file returns exactly that rule. -/
theorem c6_fallback_ruleset_witness :
    load_tsv_dict_pp (some [["#comment"], []]) = Except.ok FALLBACK_DICT ∧
    load_tsv_dict_pp (some [["a", "b", "1"]]) = Except.ok [("a", "b", 1)] :=
  ⟨c6_fallback_ruleset.2.2.1 _ rfl,
   c6_fallback_ruleset.2.2.2 _ _ rfl (by decide)⟩

/-- C10: a CLI silence timeout of 0 ms falls through Python's `or` exactly
like an omitted flag: the effective limit is `CHUNK_MS`, the segmenter
behaves identically to the omitted case, and in particular the first
non-speech frame does not flush — a speech frame followed by silence still
accumulates up to the 2000 ms ceiling (67 frames). -/
theorem c10_zero_timeout :
    limit_ms (some 0) = (CHUNK_MS : Int) ∧
    limit_ms none = (CHUNK_MS : Int) ∧
    (∀ frames, nextChunk (limit_ms (some 0)) frames = nextChunk (limit_ms none) frames) ∧
    (nextChunk (limit_ms (some 0)) (true :: List.replicate 70 false)).map
        (fun p => p.1.length) = some 67 := by
  refine ⟨rfl, rfl, fun frames => rfl, by decide⟩

theorem framesOfF_flatten :
    ∀ (ls : List (List Int)) (fuel : Nat),
      (∀ l ∈ ls, l.length = SAMPLES_PER_FRAME) →
      ls.flatten.length ≤ fuel →
      framesOfF fuel ls.flatten = ls := by
  intro ls
  induction ls with
  | nil =>
    intro fuel _ _
    cases fuel with
    | zero => rfl
    | succ f => simp [framesOfF, SAMPLES_PER_FRAME]
  | cons l ls ih =>
    intro fuel hlen hfuel
    have hl : l.length = SAMPLES_PER_FRAME := hlen l (List.mem_cons_self _ _)
    have hflat : (l :: ls).flatten = l ++ ls.flatten := rfl
    cases fuel with
    | zero =>
      exfalso
      rw [hflat, List.length_append, hl] at hfuel
      simp [SAMPLES_PER_FRAME] at hfuel
    | succ f =>
      rw [hflat]
      simp only [framesOfF]
      have hge : SAMPLES_PER_FRAME ≤ (l ++ ls.flatten).length := by
        rw [List.length_append, hl]; omega
      rw [if_pos hge]
      have htake : (l ++ ls.flatten).take SAMPLES_PER_FRAME = l := by
        rw [← hl, List.take_left]
      have hdrop : (l ++ ls.flatten).drop SAMPLES_PER_FRAME = ls.flatten := by
        rw [← hl, List.drop_left]
      rw [htake, hdrop]
      congr 1
      apply ih
      · intro x hx; exact hlen x (List.mem_cons_of_mem _ hx)
      · rw [hflat, List.length_append, hl] at hfuel
        simp [SAMPLES_PER_FRAME] at hfuel ⊢
        omega

/-- C9 counterexample: a block whose first half is loud and whose second
half is silent passes the block-level gate (its mean is above the floor),
and the silent 30 ms frame cut from it — whose own mean amplitude is below
`MIN_LEVEL` — reaches the VAD stage. -/
theorem c9_counterexample :
    belowFloor loudSilentBlock = false ∧
    List.replicate 480 (0 : Int) ∈ vadInput [loudSilentBlock] ∧
    belowFloor (List.replicate 480 (0 : Int)) = true := by
  refine ⟨by decide, by decide, by decide⟩

/-- C9 (amended): the amplitude gate runs per capture block, not per frame:
a block whose mean absolute amplitude is below `MIN_LEVEL` is discarded
before its samples can reach the framing/VAD stage, and when every capture
block is exactly one frame long, no frame below the floor ever reaches the
VAD (so a near-silent frame never starts a chunk); for longer blocks the
guarantee is only block-granular. -/
theorem c9_block_gate :
    (∀ (blocks : List (List Int)) (b : List Int),
      b ∈ blocks → belowFloor b = true → b ∉ acceptedBlocks blocks) ∧
    (∀ blocks : List (List Int),
      (∀ b ∈ blocks, b.length = SAMPLES_PER_FRAME) →
      ∀ f ∈ vadInput blocks, belowFloor f = false) := by
  constructor
  · intro blocks b _ hbf hmem
    have hpf := (List.mem_filter.mp hmem).2
    rw [hbf] at hpf
    simp at hpf
  · intro blocks hlen f hf
    have hacc : ∀ l ∈ acceptedBlocks blocks, l.length = SAMPLES_PER_FRAME := by
      intro l hl
      exact hlen l (List.mem_filter.mp hl).1
    have hva : vadInput blocks = acceptedBlocks blocks := by
      unfold vadInput framesOf
      exact framesOfF_flatten (acceptedBlocks blocks) _ hacc (le_refl _)
    rw [hva] at hf
    have hpf := (List.mem_filter.mp hf).2
    simpa using hpf

/-- Witness for `c9_block_gate`: a silent frame-sized block is discarded;
a loud frame-sized block reaches the VAD with its amplitude at or above
the floor. -/
theorem c9_block_gate_witness :
    (List.replicate 480 (0 : Int)) ∉ acceptedBlocks [List.replicate 480 (0 : Int)] ∧
    belowFloor (List.replicate 480 (5000 : Int)) = false := by
  refine ⟨c9_block_gate.1 [List.replicate 480 (0 : Int)] _ (by simp) (by decide),
          c9_block_gate.2 [List.replicate 480 (5000 : Int)] (by decide) _ (by decide)⟩

/-- C5: on the spec's concrete scenario input `142の86` the pipeline with
the built-in fallback RuleSet yields `142 の86`, not the claimed `142/86`:
the fallback pattern is written `(\\d+)の(\\d+)` in a raw string, which as
a regex matches a literal backslash followed by letters `d`, never digits,
so the rule cannot fire; only the CJK/Latin boundary-spacing step touches
the text. -/
theorem c5_no_rule_rewrite :
    post_process "142の86".toList FALLBACK_DICT = some "142 の86".toList ∧
    "142 の86".toList ≠ "142/86".toList := by
  refine ⟨by decide, by decide⟩

/-- C8 counterexample: `%x` is NFKC-normal and unit-spaced (it contains no
number/unit pair and no whitespace), yet each run of the pipeline inserts
one more full-width comma after the unit token `%`
(`_POST_COMMA_PAT` matches `%` followed by any non-whitespace character,
including the comma inserted by the previous run), so
`post_process (post_process "%x") ≠ post_process "%x"`. -/
theorem c8_counterexample :
    post_process "%x".toList FALLBACK_DICT = some "%、x".toList ∧
    post_process "%、x".toList FALLBACK_DICT = some "%、、x".toList ∧
    "%、x".toList ≠ "%、、x".toList := by
  refine ⟨by decide, by decide, by decide⟩

/-- C8 (amended): the pipeline is idempotent exactly on the inputs it
fixes: whenever `post_process s = s`, re-running the full pipeline on its
own output changes nothing.  In general idempotence fails even on
NFKC-normal, unit-spaced inputs: a unit token directly followed by a
non-whitespace character gains one additional full-width comma on every
run (see the counterexample). -/
theorem c8_fixed_point_idempotent (s : List Char)
    (h : post_process s FALLBACK_DICT = some s) :
    (post_process s FALLBACK_DICT).bind (fun t => post_process t FALLBACK_DICT) = some s := by
  rw [h]
  simp only [Option.some_bind]
  exact h

/-- Witness for `c8_fixed_point_idempotent` at `SpO2 95 %`, a fixed point
that exercises the unit-gap and unit-re-spacing stages non-trivially. -/
theorem c8_fixed_point_idempotent_witness :
    post_process "SpO2 95 %".toList FALLBACK_DICT = some "SpO2 95 %".toList ∧
    (post_process "SpO2 95 %".toList FALLBACK_DICT).bind
      (fun t => post_process t FALLBACK_DICT) = some "SpO2 95 %".toList := by
  refine ⟨by decide, c8_fixed_point_idempotent _ (by decide)⟩

/-- C1: the consumer loop's per-segment step never completes: `post_process`
requires two positional arguments `(text, rules)`, but main_medium.py line
129 (and line 175 in batch-file mode) calls `post_process(raw)` with one,
so every segment raises `TypeError` before any line can be normalized or
emitted.  A call providing both arguments does return a normalized string,
showing the missing `rules` argument is the sole obstruction. -/
theorem c1_per_segment_step_raises :
    (∀ (segText : String) (last : List Char), segment_step segText last = none) ∧
    call_post_process [PPArg.text "SpO2 95%", PPArg.rules FALLBACK_DICT]
      = some "SpO2 95 %".toList := by
  refine ⟨fun segText last => rfl, by decide⟩
